import Mathlib

/-!
Verification development for the fleet-monitoring and instance-rightsizing
engine (AiDA repository).  Python modules are shallowly embedded as Lean
definitions:

* `Ec2Scaling`       — src/ec2_scaling.py (resize orchestrator state machine)
* `InstanceScaling`  — src/instance_scaling.py (group-scaling safety gate)
* `UsageMeasurement` — src/instance_usage_measurement.py (rightsizing engine)
* `MonitoringStatus` — src/monitoring_status.py (metric cache and rule
  evaluator)

Modelling conventions: Python floats are modelled as rationals (the one
transcendental, math.exp in the swap-size curve, is modelled as Real.exp,
making only the definitions that depend on it noncomputable); timestamps
are integers (seconds) except in the orchestrator where an abstract tick
counter suffices; external collaborators (the document store, the cloud
control and metrics APIs) are passed in as explicit data: query results
become list arguments, API calls become oracle functions, and raised
exceptions become Option / Except / Bool results.
-/

namespace Ec2Scaling

/-- One entry of the steps array of a scale_status_log document, as written by
append_step in ec2_scaling.py. -/
structure Step where
  timestamp : Nat
  step : String
  percent_complete : Int
  status : String
  message : String
deriving DecidableEq, Repr

/-- A scale_status_log document.  lastUpdated is the timestamp of the most
recently appended step (absent before the first append). -/
structure LogDoc where
  instance_id : String
  status : String
  steps : List Step
  lastUpdated : Option Nat
deriving DecidableEq, Repr

/-- append_step (ec2_scaling.py lines 32-59): the painless update script
appends one step record, overwrites the document status with the status
parameter and sets lastUpdated to the step timestamp. -/
def append_step (doc : LogDoc) (now : Nat) (step : String) (percent : Int)
    (status : String) (message : String) : LogDoc :=
  { doc with
    steps := doc.steps ++ [⟨now, step, percent, status, message⟩]
    status := status
    lastUpdated := some now }

/-- The cloud-control calls scale_instance can make, in the order the code
issues them. -/
inductive Ec2Call where
  | stop
  | waitStopped
  | modify
  | start
  | waitRunning
deriving DecidableEq, Repr

/-- Outcome of each boto3 EC2 call: none means success, some msg means the
call raised an exception whose str() is msg. -/
structure Ec2Behavior where
  stop : Option String
  waitStopped : Option String
  modify : Option String
  start : Option String
  waitRunning : Option String
deriving DecidableEq, Repr

/-- Result of one scale_instance run: the final log document, the
cloud-control calls issued (in order, including the one that raised, if
any), and ok = false when the exception is re-raised to the caller. -/
structure ScaleResult where
  log : LogDoc
  calls : List Ec2Call
  ok : Bool
deriving DecidableEq, Repr

/-- The except-branch of scale_instance (lines 99-101): append a failed step
whose message is str(e) and re-raise. -/
def onFail (doc : LogDoc) (calls : List Ec2Call) (t : Nat) (err : String) :
    ScaleResult :=
  ⟨append_step doc t "Error occurred" 0 "failed" err, calls, false⟩

/-- scale_instance (ec2_scaling.py lines 85-101) together with its helpers
stop_instance, change_instance_type and start_instance (lines 62-81):
a straight-line stop / modify / start sequence.  Each append_step gets the
next clock tick.  The function never reads the document it writes to; the
behaviour oracle decides which cloud call, if any, raises. -/
def scale_instance (beh : Ec2Behavior) (doc0 : LogDoc) (t0 : Nat) : ScaleResult :=
  -- stop_instance
  let d1 := append_step doc0 t0 "Stopping instance" 10 "in_progress" ""
  match beh.stop with
  | some err => onFail d1 [Ec2Call.stop] (t0 + 1) err
  | none =>
  match beh.waitStopped with
  | some err => onFail d1 [Ec2Call.stop, Ec2Call.waitStopped] (t0 + 1) err
  | none =>
  let d2 := append_step d1 (t0 + 1) "Instance stopped" 30 "in_progress" ""
  -- change_instance_type
  let d3 := append_step d2 (t0 + 2) "Changing instance type" 40 "in_progress" ""
  match beh.modify with
  | some err => onFail d3 [Ec2Call.stop, Ec2Call.waitStopped, Ec2Call.modify] (t0 + 3) err
  | none =>
  let d4 := append_step d3 (t0 + 3) "Instance type changed" 60 "in_progress" ""
  -- start_instance
  let d5 := append_step d4 (t0 + 4) "Starting instance" 70 "in_progress" ""
  match beh.start with
  | some err =>
      onFail d5 [Ec2Call.stop, Ec2Call.waitStopped, Ec2Call.modify, Ec2Call.start] (t0 + 5) err
  | none =>
  match beh.waitRunning with
  | some err =>
      onFail d5 [Ec2Call.stop, Ec2Call.waitStopped, Ec2Call.modify, Ec2Call.start,
        Ec2Call.waitRunning] (t0 + 5) err
  | none =>
  let d6 := append_step d5 (t0 + 5) "Instance running" 100 "completed" ""
  ⟨d6, [Ec2Call.stop, Ec2Call.waitStopped, Ec2Call.modify, Ec2Call.start,
    Ec2Call.waitRunning], true⟩

/-- A behaviour in which every cloud call succeeds. -/
def behOk : Ec2Behavior := ⟨none, none, none, none, none⟩

/-- A log document externally marked canceled before the orchestrator runs. -/
def canceledDoc : LogDoc := ⟨"i-0abc", "canceled", [], some 0⟩

/-- A behaviour in which the modify_instance_attribute call raises. -/
def behModifyFail : Ec2Behavior := ⟨none, none, some "boom", none, none⟩

/-- A fresh log document with no steps yet. -/
def emptyDoc : LogDoc := ⟨"i-0abc", "in_progress", [], none⟩

end Ec2Scaling

namespace Ec2Scaling

/-- C1 counterexample: a resize whose log was externally marked canceled
before the orchestrator ran.  The claim says the orchestrator observes the
canceled status before each step transition and stops advancing, appending
no step and issuing no cloud-control call; in fact scale_instance never
reads the log, issues all five cloud-control calls and appends every step. -/
theorem scale_instance_cancel_counterexample :
    canceledDoc.status = "canceled" ∧
    (scale_instance behOk canceledDoc 0).calls =
      [Ec2Call.stop, Ec2Call.waitStopped, Ec2Call.modify, Ec2Call.start, Ec2Call.waitRunning] ∧
    (scale_instance behOk canceledDoc 0).calls ≠ [] ∧
    (scale_instance behOk canceledDoc 0).log.steps ≠ canceledDoc.steps := by
  refine ⟨rfl, rfl, ?_, ?_⟩ <;> decide

/-- C1 (amended): scale_instance never consults the ScaleStatusLog at all:
for a fixed cloud behaviour it issues the same cloud-control calls, appends
the same step records after the existing ones, and reports the same outcome,
whatever the prior contents (including an externally written canceled
status) of the log document. -/
theorem scale_instance_ignores_initial_log (beh : Ec2Behavior) (d1 d2 : LogDoc) (t0 : Nat) :
    (scale_instance beh d1 t0).calls = (scale_instance beh d2 t0).calls ∧
    (scale_instance beh d1 t0).log.steps.drop d1.steps.length =
      (scale_instance beh d2 t0).log.steps.drop d2.steps.length ∧
    (scale_instance beh d1 t0).ok = (scale_instance beh d2 t0).ok := by
  obtain ⟨s, w, m, st, wr⟩ := beh
  cases s <;> cases w <;> cases m <;> cases st <;> cases wr <;>
    simp [scale_instance, append_step, onFail, List.append_assoc, List.drop_left]

/-- C6 counterexample: when the modify call fails, the step record
immediately before the terminal failed step is the 40 percent
"Changing instance type" announcement (appended before the cloud call was
attempted), not the 30 percent "Instance stopped" step the claim names as
the last step shown. -/
theorem modify_failure_30pct_counterexample :
    (scale_instance behModifyFail emptyDoc 0).log.steps.map Step.percent_complete =
      [10, 30, 40, 0] ∧
    ((scale_instance behModifyFail emptyDoc 0).log.steps.dropLast.getLast?.map
      Step.percent_complete) = some 40 ∧
    ((scale_instance behModifyFail emptyDoc 0).log.steps.dropLast.getLast?.map
      Step.percent_complete) ≠ some 30 := by
  refine ⟨?_, ?_, ?_⟩ <;> decide

/-- C6 (amended): if the stop phase succeeds and the cloud call changing the
instance type fails with message m, scale_instance leaves the log holding
the 30 percent "Instance stopped" milestone followed by the 40 percent
"Changing instance type" announcement, then a terminal step with status
failed whose message is exactly the error message; the document status
becomes failed, the exception is re-raised to the caller, and no start call
is issued and no start step is ever appended after the failure. -/
theorem scale_instance_modify_failure (beh : Ec2Behavior) (doc : LogDoc) (t0 : Nat)
    (m : String) (h1 : beh.stop = none) (h2 : beh.waitStopped = none)
    (h3 : beh.modify = some m) :
    (scale_instance beh doc t0).log.steps =
      doc.steps ++
        [⟨t0, "Stopping instance", 10, "in_progress", ""⟩,
         ⟨t0 + 1, "Instance stopped", 30, "in_progress", ""⟩,
         ⟨t0 + 2, "Changing instance type", 40, "in_progress", ""⟩,
         ⟨t0 + 3, "Error occurred", 0, "failed", m⟩] ∧
    (scale_instance beh doc t0).log.status = "failed" ∧
    (scale_instance beh doc t0).ok = false ∧
    (scale_instance beh doc t0).calls = [Ec2Call.stop, Ec2Call.waitStopped, Ec2Call.modify] ∧
    Ec2Call.start ∉ (scale_instance beh doc t0).calls := by
  obtain ⟨s, w, mo, st, wr⟩ := beh
  simp only at h1 h2 h3
  subst h1 h2 h3
  simp [scale_instance, append_step, onFail, List.append_assoc]

/-- Witness for the amended C6 theorem at a concrete failing behaviour (kept
directly after the theorem it instantiates). -/
theorem scale_instance_modify_failure_witness :
    behModifyFail.stop = none ∧ behModifyFail.waitStopped = none ∧
    behModifyFail.modify = some "boom" ∧
    ((scale_instance behModifyFail emptyDoc 0).log.steps =
      emptyDoc.steps ++
        [⟨0, "Stopping instance", 10, "in_progress", ""⟩,
         ⟨1, "Instance stopped", 30, "in_progress", ""⟩,
         ⟨2, "Changing instance type", 40, "in_progress", ""⟩,
         ⟨3, "Error occurred", 0, "failed", "boom"⟩] ∧
     (scale_instance behModifyFail emptyDoc 0).log.status = "failed" ∧
     (scale_instance behModifyFail emptyDoc 0).ok = false ∧
     (scale_instance behModifyFail emptyDoc 0).calls =
       [Ec2Call.stop, Ec2Call.waitStopped, Ec2Call.modify] ∧
     Ec2Call.start ∉ (scale_instance behModifyFail emptyDoc 0).calls) :=
  ⟨rfl, rfl, rfl, scale_instance_modify_failure behModifyFail emptyDoc 0 "boom" rfl rfl rfl⟩

end Ec2Scaling

namespace InstanceScaling

/-- One scale_status_log document as the safety gate sees it (the fields the
count query in instance_scaling.py lines 348-362 touches).  lastUpdated is
in epoch seconds. -/
structure ScaleLog where
  instance_id : String
  status : String
  lastUpdated : Int
deriving DecidableEq, Repr

/-- One hit of the monitoring_data peer query (instance_scaling.py lines
327-344): a running peer instance sharing the group tag value, Project,
Environment, Region, Program and InstanceType with the instance being
scaled.  name models the optional top-level name field of the source
document. -/
structure PeerHit where
  InstanceId : String
  name : Option String
deriving DecidableEq, Repr

/-- The es.count query of the safety gate (lines 348-362): a log document
counts against instance id when instance_id matches, status is in_progress,
lastUpdated is at least now-30m, and (must_not) status is not canceled. -/
def conflicting (now : Int) (id : String) (e : ScaleLog) : Bool :=
  e.instance_id = id && e.status = "in_progress" &&
    now - 1800 ≤ e.lastUpdated && !(e.status = "canceled")

/-- The in_progress_count result for one peer. -/
def inProgressCount (logs : List ScaleLog) (now : Int) (id : String) : Nat :=
  (logs.filter (conflicting now id)).length

/-- instance['_source'].get("name", "Name not Assigned"). -/
def nameOf (p : PeerHit) : String := p.name.getD "Name not Assigned"

/-- The three accumulators of the gate loop (safe_to_scale,
safe_to_scale_names, not_safe_to_scale_names in the source). -/
structure GateState where
  safe_to_scale : List String
  safe_to_scale_names : List String
  not_safe_to_scale_names : List String
deriving DecidableEq, Repr

/-- The per-peer classification loop of scale_using_recommendation
(instance_scaling.py lines 345-367): for each peer hit, skip it when its id
was already collected as safe, otherwise count conflicting logs; a zero
count appends the id and name to the safe accumulators, a nonzero count
appends the name to the not-safe accumulator. -/
def classifyLoop (logs : List ScaleLog) (now : Int) :
    GateState → List PeerHit → GateState
  | st, [] => st
  | st, p :: ps =>
    if p.InstanceId ∈ st.safe_to_scale then
      classifyLoop logs now st ps
    else if inProgressCount logs now p.InstanceId = 0 then
      classifyLoop logs now
        { st with
          safe_to_scale := st.safe_to_scale ++ [p.InstanceId]
          safe_to_scale_names := st.safe_to_scale_names ++ [nameOf p] } ps
    else
      classifyLoop logs now
        { st with not_safe_to_scale_names := st.not_safe_to_scale_names ++ [nameOf p] } ps

/-- The gate run for a group starts from empty accumulators. -/
def runGate (logs : List ScaleLog) (now : Int) (peers : List PeerHit) : GateState :=
  classifyLoop logs now ⟨[], [], []⟩ peers

theorem inProgressCount_eq_zero_iff (logs : List ScaleLog) (now : Int) (id : String) :
    inProgressCount logs now id = 0 ↔ logs.any (conflicting now id) = false := by
  simp [inProgressCount, List.length_eq_zero, List.filter_eq_nil_iff, List.any_eq_false]

theorem classifyLoop_spec (logs : List ScaleLog) (now : Int) (peers : List PeerHit)
    (st : GateState) (hnd : (peers.map PeerHit.InstanceId).Nodup)
    (hdisj : ∀ p ∈ peers, p.InstanceId ∉ st.safe_to_scale) :
    classifyLoop logs now st peers =
      { safe_to_scale := st.safe_to_scale ++
          ((peers.filter fun p => !logs.any (conflicting now p.InstanceId)).map PeerHit.InstanceId)
        safe_to_scale_names := st.safe_to_scale_names ++
          ((peers.filter fun p => !logs.any (conflicting now p.InstanceId)).map nameOf)
        not_safe_to_scale_names := st.not_safe_to_scale_names ++
          ((peers.filter fun p => logs.any (conflicting now p.InstanceId)).map nameOf) } := by
  induction peers generalizing st with
  | nil => simp [classifyLoop]
  | cons p ps ih =>
    simp only [List.map_cons, List.nodup_cons] at hnd
    have hp : p.InstanceId ∉ st.safe_to_scale := hdisj p (List.mem_cons_self p ps)
    by_cases hc : logs.any (conflicting now p.InstanceId) = true
    · have hcount : ¬ inProgressCount logs now p.InstanceId = 0 := by
        rw [inProgressCount_eq_zero_iff]
        simp [hc]
      have hdisj2 : ∀ q ∈ ps, q.InstanceId ∉
          ({ st with not_safe_to_scale_names :=
              st.not_safe_to_scale_names ++ [nameOf p] } : GateState).safe_to_scale :=
        fun q hq => hdisj q (List.mem_cons_of_mem p hq)
      rw [classifyLoop, if_neg hp, if_neg hcount,
        ih { st with not_safe_to_scale_names := st.not_safe_to_scale_names ++ [nameOf p] }
          hnd.2 hdisj2]
      simp [List.filter_cons, hc, List.append_assoc]
    · have hcb : logs.any (conflicting now p.InstanceId) = false := by
        simpa using hc
      have hcount : inProgressCount logs now p.InstanceId = 0 := by
        rw [inProgressCount_eq_zero_iff]; exact hcb
      have hdisj2 : ∀ q ∈ ps, q.InstanceId ∉
          ({ st with
              safe_to_scale := st.safe_to_scale ++ [p.InstanceId]
              safe_to_scale_names := st.safe_to_scale_names ++ [nameOf p] } :
            GateState).safe_to_scale := by
        intro q hq
        simp only [List.mem_append, List.mem_singleton]
        rintro (h1 | h2)
        · exact hdisj q (List.mem_cons_of_mem p hq) h1
        · exact hnd.1 (h2 ▸ List.mem_map_of_mem PeerHit.InstanceId hq)
      rw [classifyLoop, if_neg hp, if_pos hcount,
        ih { st with
            safe_to_scale := st.safe_to_scale ++ [p.InstanceId]
            safe_to_scale_names := st.safe_to_scale_names ++ [nameOf p] }
          hnd.2 hdisj2]
      simp [List.filter_cons, hcb, List.append_assoc]

end InstanceScaling

namespace InstanceScaling

theorem conflicting_eq_true_iff (now : Int) (id : String) (e : ScaleLog) :
    conflicting now id e = true ↔
      e.instance_id = id ∧ e.status = "in_progress" ∧
        now - 1800 ≤ e.lastUpdated ∧ e.status ≠ "canceled" := by
  simp [conflicting, and_assoc]

/-- C2: among the peer hits returned by the group query, a peer is reported
in the not-safe name list exactly when some scale_status_log document for
its instance id has status in_progress, lastUpdated at least now minus 30
minutes and status not canceled; every other peer id lands in the safe list
(and the safe and not-safe accumulators are exactly the corresponding
filters of the peer list, in order). -/
theorem gate_unsafe_iff (logs : List ScaleLog) (now : Int) (peers : List PeerHit)
    (hnd : (peers.map PeerHit.InstanceId).Nodup) :
    (runGate logs now peers).not_safe_to_scale_names =
      ((peers.filter fun p => logs.any (conflicting now p.InstanceId)).map nameOf) ∧
    (runGate logs now peers).safe_to_scale =
      ((peers.filter fun p => !logs.any (conflicting now p.InstanceId)).map PeerHit.InstanceId) ∧
    (runGate logs now peers).safe_to_scale_names =
      ((peers.filter fun p => !logs.any (conflicting now p.InstanceId)).map nameOf) ∧
    ∀ p ∈ peers,
      (p.InstanceId ∈ (runGate logs now peers).safe_to_scale ↔
        ¬ ∃ e ∈ logs, e.instance_id = p.InstanceId ∧ e.status = "in_progress" ∧
          now - 1800 ≤ e.lastUpdated ∧ e.status ≠ "canceled") := by
  have hspec := classifyLoop_spec logs now peers ⟨[], [], []⟩ hnd (by simp)
  have hinj := List.inj_on_of_nodup_map hnd
  unfold runGate
  rw [hspec]
  refine ⟨by simp, by simp, by simp, ?_⟩
  intro p hp
  simp only [List.nil_append]
  constructor
  · intro hmem hex
    simp only [List.mem_map, List.mem_filter] at hmem
    obtain ⟨q, ⟨hq, hqsafe⟩, hqid⟩ := hmem
    have : q = p := hinj hq hp hqid
    subst this
    obtain ⟨e, he, h1, h2, h3, h4⟩ := hex
    have : logs.any (conflicting now q.InstanceId) = true := by
      rw [List.any_eq_true]
      exact ⟨e, he, (conflicting_eq_true_iff now q.InstanceId e).2 ⟨h1, h2, h3, h4⟩⟩
    simp [this] at hqsafe
  · intro hnex
    simp only [List.mem_map, List.mem_filter]
    refine ⟨p, ⟨hp, ?_⟩, rfl⟩
    simp only [Bool.not_eq_true']
    rw [List.any_eq_false]
    intro e he hc
    exact hnex ⟨e, he, (conflicting_eq_true_iff now p.InstanceId e).1 hc⟩

/-- Concrete gate scenario from the spec: instance A has an in_progress log
from five minutes ago, instance B has no conflicting log. -/
def gateLogs0 : List ScaleLog := [⟨"i-A", "in_progress", 9700⟩]

/-- The two peer hits of the concrete gate scenario. -/
def gatePeers0 : List PeerHit := [⟨"i-A", some "A"⟩, ⟨"i-B", some "B"⟩]

/-- Witness for C2: at the concrete scenario the hypothesis (distinct peer
instance ids) holds and the theorem applies; A is reported not safe and B
safe. -/
theorem gate_unsafe_iff_witness :
    ((gatePeers0.map PeerHit.InstanceId).Nodup ∧
      ((runGate gateLogs0 10000 gatePeers0).not_safe_to_scale_names =
        ((gatePeers0.filter fun p =>
          gateLogs0.any (conflicting 10000 p.InstanceId)).map nameOf) ∧
      (runGate gateLogs0 10000 gatePeers0).safe_to_scale =
        ((gatePeers0.filter fun p =>
          !gateLogs0.any (conflicting 10000 p.InstanceId)).map PeerHit.InstanceId) ∧
      (runGate gateLogs0 10000 gatePeers0).safe_to_scale_names =
        ((gatePeers0.filter fun p =>
          !gateLogs0.any (conflicting 10000 p.InstanceId)).map nameOf) ∧
      ∀ p ∈ gatePeers0,
        (p.InstanceId ∈ (runGate gateLogs0 10000 gatePeers0).safe_to_scale ↔
          ¬ ∃ e ∈ gateLogs0, e.instance_id = p.InstanceId ∧ e.status = "in_progress" ∧
            10000 - 1800 ≤ e.lastUpdated ∧ e.status ≠ "canceled"))) ∧
    (runGate gateLogs0 10000 gatePeers0).not_safe_to_scale_names = ["A"] ∧
    (runGate gateLogs0 10000 gatePeers0).safe_to_scale = ["i-B"] := by
  refine ⟨⟨by decide, gate_unsafe_iff gateLogs0 10000 gatePeers0 (by decide)⟩, ?_, ?_⟩ <;>
    decide

end InstanceScaling

namespace UsageMeasurement

/-- Instance-type specs as returned by get_instance_specs
(instance_usage_measurement.py lines 86-98). -/
structure InstSpec where
  vcpus : Int
  memory_mib : Int
  architectures : List String

/-- The EC2 describe API as the rightsizing engine consumes it: a spec per
instance-type name, plus the full paginated instance-type listing that
list_instance_types (lines 101-109) filters by family prefix. -/
structure AwsEnv where
  specs : String → InstSpec
  instanceTypes : List String

/-- A ram blob inside an agent task
(the dict matched by _extract_ram_from_tasks). -/
structure RamInfo where
  total : Option ℚ
  used : Option ℚ
  percentage : Option ℚ

/-- A disk entry inside an agent task (the swap scan of recommend_instance
reads its partition, used and total fields). -/
structure DiskEntry where
  partition : Option String
  used : Option ℚ
  total : Option ℚ

/-- One per-service blob inside a task; only the fields the rightsizing
engine reads are modelled. -/
structure Blob where
  ram : Option RamInfo
  disk : Option (List DiskEntry)

/-- One task is a list of per-service blobs (every task the engine sees is
list-shaped, so the isinstance list/tuple guard never skips). -/
abbrev Task := List Blob

/-- _to_mib (lines 40-61): zero or missing gives 0; a value with a
fractional part is already MiB; an integer value below 8192000 is MiB;
larger integers are bytes, divided by 1048576.  Python floats are modelled
as rationals, so having a fractional part is den different from 1. -/
def to_mib (val : Option ℚ) : ℚ :=
  match val with
  | none => 0
  | some v =>
    if v = 0 then 0
    else if v.den ≠ 1 then v
    else if v < 8192000 then v
    else v / 1048576

/-- The inner scan of _extract_ram_from_tasks: first blob carrying a ram
dict. -/
def findRamBlob : List Blob → Option RamInfo
  | [] => none
  | b :: bs =>
    match b.ram with
    | some r => some r
    | none => findRamBlob bs

/-- The percentage fallback of _extract_ram_from_tasks (line 137):
r.get("percentage") or used/total*100 when total is nonzero, else 0.
A falsy (zero or missing) percentage falls through to the computed value. -/
def ramPctOf (r : RamInfo) (total used : ℚ) : ℚ :=
  match r.percentage with
  | some p => if p ≠ 0 then p else if total ≠ 0 then used / total * 100 else 0
  | none => if total ≠ 0 then used / total * 100 else 0

/-- _extract_ram_from_tasks (lines 124-139): return
(total_mib, used_mib, pct) from the first ram blob of the first task that
has one; zeroes when nothing is found. -/
def extractRam : List Task → ℚ × ℚ × ℚ
  | [] => (0, 0, 0)
  | t :: ts =>
    match findRamBlob t with
    | some r =>
      let total := to_mib r.total
      let used := to_mib r.used
      (total, used, ramPctOf r total used)
    | none => extractRam ts

/-- One CloudWatch datapoint as recommend_instance sees it; the list may
contain falsy entries (modelled as none) and entries without a Value. -/
structure CwPoint where
  Value : Option ℚ

/-- The values surviving the filter in _mean_cpu_pct (line 143):
entries that are truthy and carry a non-None Value. -/
def cpuValues (points : List (Option CwPoint)) : List ℚ :=
  points.filterMap fun p => p.bind CwPoint.Value

/-- _mean_cpu_pct (lines 142-147): 0 for an empty value list, otherwise the
arithmetic mean, rescaled by 100 when it does not exceed 1. -/
def mean_cpu_pct (points : List (Option CwPoint)) : ℚ :=
  let vals := cpuValues points
  if vals = [] then 0
  else
    let m := vals.sum / (vals.length : ℚ)
    if m ≤ 1 then m * 100 else m

/-- The swap scan of recommend_instance (lines 183-195), threading
(used_swap_mib, configured_swap_mib, swap_pct).  Tasks shorter than two
blobs are skipped; in the second blob of a task the first disk entry whose
partition is swap sets used and configured (defaulting missing fields to
0), and the percentage only when configured is nonzero; the outer loop
stops at the first task that leaves configured nonzero. -/
def swapLoop : ℚ × ℚ × ℚ → List Task → ℚ × ℚ × ℚ
  | st, [] => st
  | st, t :: ts =>
    if t.length < 2 then swapLoop st ts
    else
      let disks :=
        match t.get? 1 with
        | some b => b.disk.getD []
        | none => []
      let st2 : ℚ × ℚ × ℚ :=
        match disks.find? (fun d => d.partition = some "swap") with
        | some d =>
          let u := to_mib (some (d.used.getD 0))
          let c := to_mib (some (d.total.getD 0))
          (u, c, if c ≠ 0 then u / c * 100 else st.2.2)
        | none => st
      if st2.2.1 ≠ 0 then st2 else swapLoop st2 ts

/-- What the rightsizing engine reads from one aggregated host document. -/
structure Host where
  InstanceType : String
  cloudwatch_cpu : List (Option CwPoint)
  cloudwatch_network_total_pct : List ℚ
  tasks : List Task

/-- The (used_swap_mib, configured_swap_mib, swap_pct) triple for a host. -/
def swapTriple (host : Host) : ℚ × ℚ × ℚ := swapLoop (0, 0, 0) host.tasks

/-- Network percent (lines 201-202): mean of the network_total_pct values,
0 when there are none. -/
def netPctOf (host : Host) : ℚ :=
  if host.cloudwatch_network_total_pct = [] then 0
  else host.cloudwatch_network_total_pct.sum / (host.cloudwatch_network_total_pct.length : ℚ)

/-- get_dynamic_itil_swap (lines 115-121): interp = exp(-memory/decay),
factor = min_factor + (max_factor - min_factor) * interp, result =
ceil(memory * factor).  math.exp is modelled as Real.exp, which makes this
and everything using it noncomputable. -/
noncomputable def get_dynamic_itil_swap (memory_mib : Int) (max_factor min_factor : ℝ)
    (decay_scale_mib : Int) : Int :=
  Int.ceil ((memory_mib : ℝ) *
    (min_factor + (max_factor - min_factor) *
      Real.exp (-(memory_mib : ℝ) / (decay_scale_mib : ℝ))))

/-- The recommended swap for the host (line 197), at the source defaults
max_factor 2, min_factor 1, decay scale 16*1024. -/
noncomputable def recSwapMib (env : AwsEnv) (host : Host) : ℚ :=
  ((get_dynamic_itil_swap (env.specs host.InstanceType).memory_mib 2 1 (16 * 1024) : Int) : ℚ)

/-- effective_swap_mib (line 198): min of recommendation and configured
swap when some swap is configured, otherwise the full recommendation. -/
noncomputable def effective_swap_mib (env : AwsEnv) (host : Host) : ℚ :=
  if (swapTriple host).2.1 ≠ 0 then min (recSwapMib env host) (swapTriple host).2.1
  else recSwapMib env host

/-- list_instance_types (lines 101-109): all known types of the family
(the source calls the argument the family prefix). -/
def list_instance_types (env : AwsEnv) (fam : String) : List String :=
  env.instanceTypes.filter fun it => it.startsWith (fam ++ ".")

/-- The sort key order of the candidate list (line 209): by vCPUs, then
memory. -/
def sizeKeyLe (env : AwsEnv) (a b : String) : Prop :=
  (env.specs a).vcpus < (env.specs b).vcpus ∨
    ((env.specs a).vcpus = (env.specs b).vcpus ∧
      (env.specs a).memory_mib ≤ (env.specs b).memory_mib)

instance (env : AwsEnv) : DecidableRel (sizeKeyLe env) := fun a b => by
  unfold sizeKeyLe
  exact inferInstance

/-- The family prefix of the current type (line 205): the shortest prefix
before the first dot. -/
def familyOf (current : String) : String := current.takeWhile (· ≠ '.')

/-- The candidate list (lines 207-210): same family, sharing at least one
CPU architecture with the current type, sorted ascending by
(vCPUs, memory). -/
def candidates (env : AwsEnv) (current : String) : List String :=
  ((list_instance_types env (familyOf current)).filter fun it =>
      (env.specs current).architectures.any fun a =>
        (env.specs it).architectures.contains a).insertionSort (sizeKeyLe env)

/-- pick_smallest (lines 212-217): first candidate meeting both needs, else
the largest candidate; none only when the candidate list is empty (where
the Python raises IndexError). -/
def pick_smallest (env : AwsEnv) (cands : List String) (v_need : Int) (m_need : ℚ) :
    Option String :=
  match cands.find? (fun it =>
      decide ((env.specs it).vcpus ≥ v_need) &&
      decide (((env.specs it).memory_mib : ℚ) ≥ m_need)) with
  | some it => some it
  | none => cands.getLast?

/-- _cmp_size (lines 150-155): -1, 0 or 1 comparing two types by vCPU then
memory, written as the Python (a gt b) - (a lt b) differences. -/
def cmp_size (env : AwsEnv) (a b : String) : Int :=
  if (env.specs a).vcpus ≠ (env.specs b).vcpus then
    (if (env.specs a).vcpus > (env.specs b).vcpus then 1 else 0) -
      (if (env.specs a).vcpus < (env.specs b).vcpus then 1 else 0)
  else
    (if (env.specs a).memory_mib > (env.specs b).memory_mib then 1 else 0) -
      (if (env.specs a).memory_mib < (env.specs b).memory_mib then 1 else 0)

/-- The output record of recommend_instance (lines 273-280).  The Reason
field, a display-only formatted string, is not modelled. -/
structure Recommendation where
  NewInstanceType : String
  changed : Bool
  MemoryUsedMiB : ℚ
  MemoryTotalMiB : ℚ
  MemoryPct : ℚ
deriving DecidableEq

/-- recommend_instance (lines 163-280).  Notes: the unused cpu_vals and
required_ram_down bindings of the source (lines 175, 236-239) are dead code
and not modelled; Lean total division makes x/0 equal 0 where Python would
raise ZeroDivisionError (only reachable with a zero threshold argument);
none is returned exactly where the Python raises IndexError on an empty
candidate list. -/
noncomputable def recommend_instance (env : AwsEnv) (host : Host)
    (cpu_upper cpu_lower swap_upper swap_lower net_upper net_lower : ℚ) :
    Option Recommendation :=
  let current := host.InstanceType
  let specs := env.specs current
  let total_ram_mib := specs.memory_mib
  let cpu_pct := mean_cpu_pct host.cloudwatch_cpu
  let req_vcpus : Int := max 1 (Int.ceil ((specs.vcpus : ℚ) * cpu_pct / 100 * 2))
  let ram := extractRam host.tasks
  let sw := swapTriple host
  let used_swap_mib := sw.1
  let configured_swap_mib := sw.2.1
  let swap_pct := sw.2.2
  let eff := effective_swap_mib env host
  let net_pct := netPctOf host
  let cands := candidates env current
  let required_ram_up : ℚ :=
    if configured_swap_mib ≠ 0 then
      max (((Int.ceil (used_swap_mib * 100 / swap_upper) : Int) : ℚ) - configured_swap_mib)
        (total_ram_mib : ℚ)
    else (total_ram_mib : ℚ)
  let req_mem_up := required_ram_up + eff
  let req_mem_min := ((Int.ceil ram.2.1 : Int) : ℚ) + eff
  let over := cpu_pct > cpu_upper ∨ swap_pct > swap_upper ∨ net_pct > net_upper
  let under := cpu_pct < cpu_lower ∧ swap_pct < swap_lower ∧ net_pct < net_lower
  let target : Option String :=
    if over then pick_smallest env cands req_vcpus req_mem_up
    else if under then pick_smallest env cands req_vcpus req_mem_min
    else some current
  match target with
  | none => none
  | some tgt =>
    some ⟨tgt, decide (cmp_size env tgt current ≠ 0), ram.2.1, ram.1, ram.2.2⟩

end UsageMeasurement

namespace UsageMeasurement

/-- At the source defaults the swap recommendation is at least the memory
it is computed from, since the decay factor always exceeds 1. -/
theorem get_dynamic_itil_swap_ge (m : Int) (hm : 0 ≤ m) :
    m ≤ get_dynamic_itil_swap m 2 1 (16 * 1024) := by
  unfold get_dynamic_itil_swap
  have hexp : (0:ℝ) < Real.exp (-(m:ℝ) / (((16 * 1024 : Int) : ℝ))) := Real.exp_pos _
  have hm0 : (0:ℝ) ≤ (m:ℝ) := by exact_mod_cast hm
  have hle : (m:ℝ) ≤ (m:ℝ) *
      ((1:ℝ) + ((2:ℝ) - 1) * Real.exp (-(m:ℝ) / (((16 * 1024 : Int) : ℝ)))) := by
    nlinarith
  calc m = Int.ceil ((m:ℝ)) := (Int.ceil_intCast m).symm
    _ ≤ _ := Int.ceil_le_ceil hle

/-- A fixed environment: every type resolves to 4 vCPUs, 16384 MiB. -/
def env0 : AwsEnv := ⟨fun _ => ⟨4, 16384, ["x86_64"]⟩, ["m5.xlarge"]⟩

/-- A host reporting no swap partition at all (configured swap 0). -/
def hostNoSwap : Host := ⟨"m5.xlarge", [], [], []⟩

/-- C4 counterexample: on a host with zero configured swap the effective
swap is the full recommendation, not the minimum of recommendation and
configured swap (which would be 0), so the engine does propose swap beyond
what is provisioned in that case. -/
theorem effective_swap_zero_counterexample :
    (swapTriple hostNoSwap).2.1 = 0 ∧
    effective_swap_mib env0 hostNoSwap ≠
      min (recSwapMib env0 hostNoSwap) (swapTriple hostNoSwap).2.1 := by
  have h1 : (swapTriple hostNoSwap).2.1 = 0 := rfl
  have hge : (16384 : Int) ≤ get_dynamic_itil_swap 16384 2 1 (16 * 1024) :=
    get_dynamic_itil_swap_ge 16384 (by norm_num)
  have hrec : (16384 : ℚ) ≤ recSwapMib env0 hostNoSwap := by
    have h2 : recSwapMib env0 hostNoSwap =
        ((get_dynamic_itil_swap 16384 2 1 (16 * 1024) : Int) : ℚ) := rfl
    rw [h2]
    exact_mod_cast hge
  refine ⟨h1, ?_⟩
  have heff : effective_swap_mib env0 hostNoSwap = recSwapMib env0 hostNoSwap := by
    unfold effective_swap_mib
    rw [h1]
    simp
  rw [heff, h1]
  have hmin : min (recSwapMib env0 hostNoSwap) (0 : ℚ) = 0 :=
    min_eq_right (le_trans (by norm_num) hrec)
  rw [hmin]
  intro hEq
  rw [hEq] at hrec
  norm_num at hrec

/-- C4 (amended): whenever the host has nonzero configured swap, the
effective swap used in the memory requirements is the minimum of the
recommended swap and the configured swap, hence never exceeds what is
already provisioned; with zero configured swap the engine instead uses the
full recommendation. -/
theorem effective_swap_min_of_configured (env : AwsEnv) (host : Host)
    (h : (swapTriple host).2.1 ≠ 0) :
    effective_swap_mib env host = min (recSwapMib env host) (swapTriple host).2.1 ∧
    effective_swap_mib env host ≤ (swapTriple host).2.1 := by
  unfold effective_swap_mib
  rw [if_pos h]
  exact ⟨rfl, min_le_right _ _⟩

/-- A host whose second blob of the only task reports a swap partition with
500 MiB used of 1000 MiB configured, ram 1024 of 2048 MiB, cpu and network
both at 50 percent. -/
def hostMid : Host :=
  ⟨"m5.xlarge",
   [some ⟨some 50⟩],
   [50],
   [[⟨some ⟨some 2048, some 1024, some 50⟩, none⟩,
     ⟨none, some [⟨some "swap", some 500, some 1000⟩]⟩]]⟩

/-- Witness for the amended C4 theorem on a host with 1000 MiB of
configured swap. -/
theorem effective_swap_min_of_configured_witness :
    (swapTriple hostMid).2.1 ≠ 0 ∧
    (effective_swap_mib env0 hostMid =
        min (recSwapMib env0 hostMid) (swapTriple hostMid).2.1 ∧
      effective_swap_mib env0 hostMid ≤ (swapTriple hostMid).2.1) := by
  have h : (swapTriple hostMid).2.1 ≠ 0 := by
    have h2 : (swapTriple hostMid).2.1 = 1000 := rfl
    rw [h2]
    norm_num
  exact ⟨h, effective_swap_min_of_configured env0 hostMid h⟩

/-- C5: when the cpu, swap and network percentages all lie strictly between
the lower and upper thresholds, recommend_instance reports no change: the
new instance type is the current one and changed is false (scale-up needs
one metric above its upper threshold, scale-down needs all three below
their lower thresholds). -/
theorem recommend_no_change (env : AwsEnv) (host : Host) (cu cl su sl nu nl : ℚ)
    (h1 : cl < mean_cpu_pct host.cloudwatch_cpu)
    (h2 : mean_cpu_pct host.cloudwatch_cpu < cu)
    (h3 : sl < (swapTriple host).2.2) (h4 : (swapTriple host).2.2 < su)
    (h5 : nl < netPctOf host) (h6 : netPctOf host < nu) :
    recommend_instance env host cu cl su sl nu nl =
      some ⟨host.InstanceType, false, (extractRam host.tasks).2.1,
        (extractRam host.tasks).1, (extractRam host.tasks).2.2⟩ := by
  have hover : ¬ (mean_cpu_pct host.cloudwatch_cpu > cu ∨
      (swapTriple host).2.2 > su ∨ netPctOf host > nu) := by
    push_neg
    exact ⟨le_of_lt h2, le_of_lt h4, le_of_lt h6⟩
  have hunder : ¬ (mean_cpu_pct host.cloudwatch_cpu < cl ∧
      (swapTriple host).2.2 < sl ∧ netPctOf host < nl) := by
    intro hc
    exact absurd hc.1 (not_lt.2 (le_of_lt h1))
  simp only [recommend_instance]
  rw [if_neg hover, if_neg hunder]
  have hcmp : cmp_size env host.InstanceType host.InstanceType = 0 := by
    unfold cmp_size
    simp
  simp [hcmp]

/-- Witness for C5 at a host whose three percentages are all 50, against
the default 75/25 thresholds. -/
theorem recommend_no_change_witness :
    (((25:ℚ) < mean_cpu_pct hostMid.cloudwatch_cpu ∧
      mean_cpu_pct hostMid.cloudwatch_cpu < 75) ∧
     ((25:ℚ) < (swapTriple hostMid).2.2 ∧ (swapTriple hostMid).2.2 < 75) ∧
     ((25:ℚ) < netPctOf hostMid ∧ netPctOf hostMid < 75)) ∧
    recommend_instance env0 hostMid 75 25 75 25 75 25 =
      some ⟨hostMid.InstanceType, false, (extractRam hostMid.tasks).2.1,
        (extractRam hostMid.tasks).1, (extractRam hostMid.tasks).2.2⟩ := by
  have hcpu : mean_cpu_pct hostMid.cloudwatch_cpu = 50 := by
    have hv : cpuValues hostMid.cloudwatch_cpu = [50] := rfl
    simp only [mean_cpu_pct, hv]
    norm_num
  have hsw : (swapTriple hostMid).2.2 = (500:ℚ) / 1000 * 100 := rfl
  have hsw50 : (swapTriple hostMid).2.2 = 50 := by rw [hsw]; norm_num
  have hnet : netPctOf hostMid = 50 := by
    norm_num [netPctOf, hostMid]
  refine ⟨⟨⟨?_, ?_⟩, ⟨?_, ?_⟩, ⟨?_, ?_⟩⟩,
    recommend_no_change env0 hostMid 75 25 75 25 75 25 ?_ ?_ ?_ ?_ ?_ ?_⟩ <;>
    simp [hcpu, hsw50, hnet] <;> norm_num

/-- C10: the cpu percentage driving recommend_instance (computed by
mean_cpu_pct from the CloudWatch cpu datapoints) is 0 when no datapoint
carries a value, the mean multiplied by 100 when the mean is at most 1, and
the mean unchanged otherwise — so a mean utilization of at most 1 percent
is amplified a hundredfold. -/
theorem mean_cpu_pct_cases (points : List (Option CwPoint)) :
    (cpuValues points = [] → mean_cpu_pct points = 0) ∧
    ∀ m : ℚ, cpuValues points ≠ [] →
      m = (cpuValues points).sum / ((cpuValues points).length : ℚ) →
      ((m ≤ 1 → mean_cpu_pct points = m * 100) ∧
       (1 < m → mean_cpu_pct points = m)) := by
  constructor
  · intro h
    simp only [mean_cpu_pct]
    rw [if_pos h]
  · intro m hne hm
    simp only [mean_cpu_pct]
    rw [if_neg hne, ← hm]
    constructor
    · intro hle
      rw [if_pos hle]
    · intro hgt
      rw [if_neg (not_le.2 hgt)]

/-- A cpu series with one datapoint whose value is one two-hundredth, a
genuine utilization of half a percent reported as a ratio. -/
def cpuPointsLow : List (Option CwPoint) := [some ⟨some (1/200)⟩]

/-- Witness for C10: a single datapoint of one two-hundredth has mean at
most 1, so the engine rescales it a hundredfold to one half. -/
theorem mean_cpu_pct_cases_witness :
    (cpuPointsLow ≠ [] ∧ cpuValues cpuPointsLow ≠ [] ∧
      (1:ℚ)/200 = (cpuValues cpuPointsLow).sum / ((cpuValues cpuPointsLow).length : ℚ)) ∧
    mean_cpu_pct cpuPointsLow = 1/2 := by
  have hne : cpuValues cpuPointsLow ≠ [] := by
    simp [cpuValues, cpuPointsLow]
  have hm : (1:ℚ)/200 =
      (cpuValues cpuPointsLow).sum / ((cpuValues cpuPointsLow).length : ℚ) := by
    have hv : cpuValues cpuPointsLow = [1/200] := rfl
    rw [hv]
    norm_num
  have h := ((mean_cpu_pct_cases cpuPointsLow).2 ((1:ℚ)/200) hne hm).1 (by norm_num)
  refine ⟨⟨by simp [cpuPointsLow], hne, hm⟩, ?_⟩
  rw [h]
  norm_num

end UsageMeasurement

namespace MonitoringStatus

/-- One metric point of a cached or freshly fetched series
(monitoring_status.py, es_bulk_load and fetch_metric): a timestamp in epoch
seconds and a numeric value.  Units and volume tags play no role in the
claims and are not modelled. -/
structure MPoint where
  ts : Int
  val : ℚ
deriving DecidableEq

/-- max(d["Timestamp"] for d in existing), none on an empty series. -/
def maxTs (pts : List MPoint) : Option Int := (pts.map MPoint.ts).max?

/-- The per-label gap-filling merge of get_instance_metrics (lines 432-452,
repeated verbatim for volume labels at lines 475-489): start from the
cached points; when live fetching, compute fetch_start as the latest cached
timestamp plus the sampling period (or the window start when nothing is
cached) and, only if fetch_start is before the window end, append the
points of one external fetch over [fetch_start, windowEnd].  The second
component records the external fetch calls issued. -/
def mergeLabel (fetchLive : Bool) (existing : List MPoint) (startT endT period : Int)
    (fetch : Int → Int → List MPoint) : List MPoint × List (Int × Int) :=
  if fetchLive then
    let fetchStart :=
      match maxTs existing with
      | some t => t + period
      | none => startT
    if fetchStart < endT then
      (existing ++ fetch fetchStart endT, [(fetchStart, endT)])
    else (existing, [])
  else (existing, [])

/-- A botocore ClientError, identified by its error code. -/
structure ClientErr where
  code : String
deriving DecidableEq

/-- The external world of get_instance_metrics: the describe_instances
outcome, the cached ES points per metric label, and the CloudWatch fetch
oracle per label. -/
structure GimEnv where
  describeInstances : Except ClientErr Unit
  loaded : String → List MPoint
  fetchOracle : String → Int → Int → List MPoint

/-- The timestamps of a series. -/
def tsKeys (pts : List MPoint) : List Int := pts.map MPoint.ts

/-- Python dict lookup semantics of in_map[ts] where the dict was built by
one pass over the list: the last point with the given timestamp wins. -/
def lastAt (pts : List MPoint) (t : Int) : Option MPoint :=
  (pts.filter (fun p => p.ts = t)).getLast?

/-- sorted(in_map.keys() and out_map.keys()) of lines 517-519: the distinct
timestamps present in both series, in ascending order (Python sorted is
modelled by insertion sort). -/
def commonTs (ins outs : List MPoint) : List Int :=
  (((tsKeys ins).dedup).filter (fun t => t ∈ tsKeys outs)).insertionSort (· ≤ ·)

/-- The body of the network_total loop (line 527): the sum of the in and
out values at one timestamp, none when either side is missing (never hit
for a timestamp drawn from the common set). -/
def joinAt (ins outs : List MPoint) (t : Int) : Option MPoint :=
  match lastAt ins t, lastAt outs t with
  | some a, some b => some ⟨t, a.val + b.val⟩
  | _, _ => none

/-- The network_total derivation (lines 526-533): one point per common
timestamp, valued at the sum of the two values there. -/
def networkTotal (ins outs : List MPoint) : List MPoint :=
  (commonTs ins outs).filterMap (joinAt ins outs)

/-- get_instance_metrics (lines 329-577) restricted to the instance-level
labels: describe the instance (returning an empty result map when the
provider reports InvalidInstanceID.NotFound, re-raising any other client
error), gap-merge the three instance metrics, and derive network_total when
both network series are nonempty.  The per-volume labels repeat mergeLabel
per volume metric and their derived per-mount series repeat the
intersection join of networkTotal; no claim concerns them, nor the
bandwidth-percent series, so they are not modelled.  The second result
component is the audit list of external fetch calls. -/
def get_instance_metrics (env : GimEnv) (startT endT period : Int) (fetchLive : Bool) :
    Except ClientErr (List (String × List MPoint) × List (String × Int × Int)) :=
  match env.describeInstances with
  | .error e =>
    if e.code = "InvalidInstanceID.NotFound" then .ok ([], [])
    else .error e
  | .ok _ =>
    let cpu := mergeLabel fetchLive (env.loaded "cpu") startT endT period
      (env.fetchOracle "cpu")
    let nin := mergeLabel fetchLive (env.loaded "network_in") startT endT period
      (env.fetchOracle "network_in")
    let nout := mergeLabel fetchLive (env.loaded "network_out") startT endT period
      (env.fetchOracle "network_out")
    let base := [("cpu", cpu.1), ("network_in", nin.1), ("network_out", nout.1)]
    let results :=
      if nin.1 ≠ [] ∧ nout.1 ≠ [] then
        base ++ [("network_total", networkTotal nin.1 nout.1)]
      else base
    .ok (results,
      cpu.2.map (fun c => ("cpu", c)) ++ nin.2.map (fun c => ("network_in", c)) ++
        nout.2.map (fun c => ("network_out", c)))

end MonitoringStatus

namespace MonitoringStatus

/-- C7: for a label whose cached series reaches up to timestamp T, a
gap-filling merge with window end at or before T issues no external fetch
call and returns exactly the cached points; and when the cached series ends
more than one period before the window end, exactly one fetch over the
remainder, from T plus one period to the window end, is issued — never an
interval that was already cached. -/
theorem mergeLabel_gap_minimal (existing : List MPoint) (startT endT period T : Int)
    (fetch : Int → Int → List MPoint)
    (hmax : maxTs existing = some T) (hper : 0 ≤ period) :
    (endT ≤ T → mergeLabel true existing startT endT period fetch = (existing, [])) ∧
    (T + period < endT →
      mergeLabel true existing startT endT period fetch =
        (existing ++ fetch (T + period) endT, [(T + period, endT)])) := by
  constructor
  · intro hend
    have hnot : ¬ (T + period < endT) := by
      push_neg
      linarith
    simp [mergeLabel, hmax, hnot]
  · intro hlt
    simp [mergeLabel, hmax, hlt]

/-- A series cached up to timestamp 200. -/
def cached0 : List MPoint := [⟨100, 1⟩, ⟨200, 2⟩]

/-- A fetch oracle that returns no points. -/
def noFetch : Int → Int → List MPoint := fun _ _ => []

/-- Witness for C7: with the cache reaching 200 and the window ending at
200, the merge issues zero fetch calls and returns the cached points. -/
theorem mergeLabel_gap_minimal_witness :
    (maxTs cached0 = some 200 ∧ (0 : Int) ≤ 300) ∧
    (((200 : Int) ≤ 200 → mergeLabel true cached0 0 200 300 noFetch = (cached0, [])) ∧
     ((200 : Int) + 300 < 200 →
       mergeLabel true cached0 0 200 300 noFetch =
         (cached0 ++ noFetch (200 + 300) 200, [(200 + 300, 200)]))) ∧
    mergeLabel true cached0 0 200 300 noFetch = (cached0, []) := by
  have h := mergeLabel_gap_minimal cached0 0 200 300 200 noFetch (by decide) (by decide)
  exact ⟨⟨by decide, by decide⟩, h, h.1 (by decide)⟩

/-- C8: if describe_instances fails with the NotFound client error,
get_instance_metrics returns an empty result map (and issues no fetch)
instead of raising; any other describe error is re-raised. -/
theorem get_instance_metrics_notfound (env : GimEnv) (startT endT period : Int)
    (fetchLive : Bool) (e : ClientErr) (he : env.describeInstances = .error e) :
    (e.code = "InvalidInstanceID.NotFound" →
      get_instance_metrics env startT endT period fetchLive = .ok ([], [])) ∧
    (e.code ≠ "InvalidInstanceID.NotFound" →
      get_instance_metrics env startT endT period fetchLive = .error e) := by
  constructor
  · intro h
    simp [get_instance_metrics, he, h]
  · intro h
    simp [get_instance_metrics, he, h]

/-- An environment whose describe call raises the NotFound client error. -/
def envNotFound : GimEnv := ⟨.error ⟨"InvalidInstanceID.NotFound"⟩, fun _ => [], fun _ _ _ => []⟩

/-- An environment whose describe call raises a throttling client error. -/
def envOtherErr : GimEnv := ⟨.error ⟨"Throttling"⟩, fun _ => [], fun _ _ _ => []⟩

/-- Witness for C8 on both kinds of describe failure. -/
theorem get_instance_metrics_notfound_witness :
    (envNotFound.describeInstances = .error ⟨"InvalidInstanceID.NotFound"⟩ ∧
      get_instance_metrics envNotFound 0 100 300 true = .ok ([], [])) ∧
    (envOtherErr.describeInstances = .error ⟨"Throttling"⟩ ∧
      get_instance_metrics envOtherErr 0 100 300 true = .error ⟨"Throttling"⟩) :=
  ⟨⟨rfl, (get_instance_metrics_notfound envNotFound 0 100 300 true _ rfl).1 rfl⟩,
   ⟨rfl, (get_instance_metrics_notfound envOtherErr 0 100 300 true _ rfl).2 (by decide)⟩⟩

end MonitoringStatus

namespace MonitoringStatus

theorem lastAt_isSome_iff (pts : List MPoint) (t : Int) :
    (lastAt pts t).isSome ↔ t ∈ tsKeys pts := by
  unfold lastAt tsKeys
  rw [List.getLast?_isSome]
  constructor
  · intro h
    obtain ⟨p, hp⟩ := List.exists_mem_of_ne_nil _ h
    rw [List.mem_filter] at hp
    exact List.mem_map.2 ⟨p, hp.1, by simpa using hp.2⟩
  · intro h
    obtain ⟨p, hp, hpt⟩ := List.mem_map.1 h
    exact List.ne_nil_of_mem (List.mem_filter.2 ⟨hp, by simp [hpt]⟩)

theorem lastAt_mem (pts : List MPoint) (t : Int) (p : MPoint)
    (h : lastAt pts t = some p) : p ∈ pts ∧ p.ts = t := by
  have hm : p ∈ pts.filter (fun q => q.ts = t) := List.mem_of_mem_getLast? h
  rw [List.mem_filter] at hm
  exact ⟨hm.1, by simpa using hm.2⟩

theorem lastAt_of_nodup (pts : List MPoint) (hnd : (pts.map MPoint.ts).Nodup)
    (p : MPoint) (hp : p ∈ pts) : lastAt pts p.ts = some p := by
  have hne : pts.filter (fun q => q.ts = p.ts) ≠ [] :=
    List.ne_nil_of_mem (List.mem_filter.2 ⟨hp, by simp⟩)
  have hsome : (lastAt pts p.ts).isSome := by
    unfold lastAt
    rw [List.getLast?_isSome]
    exact hne
  obtain ⟨q, hq⟩ := Option.isSome_iff_exists.1 hsome
  obtain ⟨hq1, hq2⟩ := lastAt_mem pts p.ts q hq
  have hqp : q = p := List.inj_on_of_nodup_map hnd hq1 hp hq2
  rw [hq, hqp]

theorem mem_commonTs (ins outs : List MPoint) (t : Int) :
    t ∈ commonTs ins outs ↔ t ∈ tsKeys ins ∧ t ∈ tsKeys outs := by
  unfold commonTs
  rw [(List.perm_insertionSort _ _).mem_iff, List.mem_filter, List.mem_dedup]
  simp

theorem commonTs_nodup (ins outs : List MPoint) : (commonTs ins outs).Nodup := by
  unfold commonTs
  rw [(List.perm_insertionSort _ _).nodup_iff]
  exact List.Nodup.filter _ (List.nodup_dedup _)

theorem joinAt_eq (ins outs : List MPoint) (t : Int) (a b : MPoint)
    (ha : lastAt ins t = some a) (hb : lastAt outs t = some b) :
    joinAt ins outs t = some ⟨t, a.val + b.val⟩ := by
  unfold joinAt
  rw [ha, hb]

theorem joinMap_map_ts (ins outs : List MPoint) :
    ∀ l : List Int, (∀ t ∈ l, t ∈ tsKeys ins ∧ t ∈ tsKeys outs) →
      (l.filterMap (joinAt ins outs)).map MPoint.ts = l := by
  intro l
  induction l with
  | nil => intro _; rfl
  | cons t ts ih =>
    intro h
    obtain ⟨a, ha⟩ := Option.isSome_iff_exists.1
      ((lastAt_isSome_iff ins t).2 (h t (List.mem_cons_self t ts)).1)
    obtain ⟨b, hb⟩ := Option.isSome_iff_exists.1
      ((lastAt_isSome_iff outs t).2 (h t (List.mem_cons_self t ts)).2)
    simp only [List.filterMap_cons, joinAt_eq ins outs t a b ha hb, List.map_cons]
    rw [ih (fun s hs => h s (List.mem_cons_of_mem t hs))]

/-- C9: for series without duplicate timestamps, the derived network_total
series has one point per timestamp present in both inputs, valued at the
sum of the two values there, and nothing else: the output timestamps are
distinct, every in/out pair at a shared timestamp contributes its sum, and
every output point decomposes as such a sum — so a timestamp present in
only one input yields no point. -/
theorem networkTotal_join (ins outs : List MPoint)
    (hin : (ins.map MPoint.ts).Nodup) (hout : (outs.map MPoint.ts).Nodup) :
    ((networkTotal ins outs).map MPoint.ts).Nodup ∧
    (∀ t a b, (⟨t, a⟩ : MPoint) ∈ ins → (⟨t, b⟩ : MPoint) ∈ outs →
      (⟨t, a + b⟩ : MPoint) ∈ networkTotal ins outs) ∧
    (∀ p ∈ networkTotal ins outs,
      ∃ a b, (⟨p.ts, a⟩ : MPoint) ∈ ins ∧ (⟨p.ts, b⟩ : MPoint) ∈ outs ∧ p.val = a + b) := by
  refine ⟨?_, ?_, ?_⟩
  · unfold networkTotal
    rw [joinMap_map_ts ins outs (commonTs ins outs)
      (fun t ht => (mem_commonTs ins outs t).1 ht)]
    exact commonTs_nodup ins outs
  · intro t a b hta htb
    have h1 : t ∈ tsKeys ins := List.mem_map.2 ⟨⟨t, a⟩, hta, rfl⟩
    have h2 : t ∈ tsKeys outs := List.mem_map.2 ⟨⟨t, b⟩, htb, rfl⟩
    have hct : t ∈ commonTs ins outs := (mem_commonTs ins outs t).2 ⟨h1, h2⟩
    have ha : lastAt ins t = some ⟨t, a⟩ := lastAt_of_nodup ins hin ⟨t, a⟩ hta
    have hb : lastAt outs t = some ⟨t, b⟩ := lastAt_of_nodup outs hout ⟨t, b⟩ htb
    unfold networkTotal
    exact List.mem_filterMap.2 ⟨t, hct, joinAt_eq ins outs t ⟨t, a⟩ ⟨t, b⟩ ha hb⟩
  · intro p hp
    unfold networkTotal at hp
    obtain ⟨t, hct, hj⟩ := List.mem_filterMap.1 hp
    rcases hha : lastAt ins t with _ | a0
    · rw [joinAt, hha] at hj
      simp at hj
    rcases hhb : lastAt outs t with _ | b0
    · rw [joinAt, hha, hhb] at hj
      simp at hj
    rw [joinAt_eq ins outs t a0 b0 hha hhb, Option.some.injEq] at hj
    obtain ⟨ha1, ha2⟩ := lastAt_mem ins t a0 hha
    obtain ⟨hb1, hb2⟩ := lastAt_mem outs t b0 hhb
    subst hj
    refine ⟨a0.val, b0.val, ?_, ?_, rfl⟩
    · have he : (⟨t, a0.val⟩ : MPoint) = a0 := by
        rw [← ha2]
      rw [he]
      exact ha1
    · have he : (⟨t, b0.val⟩ : MPoint) = b0 := by
        rw [← hb2]
      rw [he]
      exact hb1

/-- The network_in series of the spec example: points at t1 = 1 and t2 = 2. -/
def netIn0 : List MPoint := [⟨1, 100⟩, ⟨2, 200⟩]

/-- The network_out series of the spec example: a single point at t1 = 1. -/
def netOut0 : List MPoint := [⟨1, 50⟩]

/-- Witness for C9 at the spec example: in = [(1,100),(2,200)],
out = [(1,50)] derive the single point (1,150). -/
theorem networkTotal_join_witness :
    ((netIn0.map MPoint.ts).Nodup ∧ (netOut0.map MPoint.ts).Nodup) ∧
    (((networkTotal netIn0 netOut0).map MPoint.ts).Nodup ∧
     (∀ t a b, (⟨t, a⟩ : MPoint) ∈ netIn0 → (⟨t, b⟩ : MPoint) ∈ netOut0 →
       (⟨t, a + b⟩ : MPoint) ∈ networkTotal netIn0 netOut0) ∧
     (∀ p ∈ networkTotal netIn0 netOut0,
       ∃ a b, (⟨p.ts, a⟩ : MPoint) ∈ netIn0 ∧ (⟨p.ts, b⟩ : MPoint) ∈ netOut0 ∧
         p.val = a + b)) ∧
    networkTotal netIn0 netOut0 = [(⟨1, 150⟩ : MPoint)] := by
  have h1 : lastAt netIn0 1 = some ⟨1, 100⟩ := by decide
  have h2 : lastAt netOut0 1 = some ⟨1, 50⟩ := by decide
  have hct : commonTs netIn0 netOut0 = [1] := by decide
  have heval : networkTotal netIn0 netOut0 = [(⟨1, (100 : ℚ) + 50⟩ : MPoint)] := by
    unfold networkTotal
    rw [hct]
    simp [joinAt_eq netIn0 netOut0 1 ⟨1, 100⟩ ⟨1, 50⟩ h1 h2]
  refine ⟨⟨by decide, by decide⟩,
    networkTotal_join netIn0 netOut0 (by decide) (by decide), ?_⟩
  rw [heval]
  norm_num

end MonitoringStatus

namespace MonitoringStatus

/-- A Python value as server_status_check manipulates them: numbers
(int/float unified as rationals), strings, lists, dicts with string keys,
and None.  Dicts are modelled as ordered association lists. -/
inductive Val where
  | num (q : ℚ)
  | str (s : String)
  | list (vs : List Val)
  | dict (kvs : List (String × Val))
  | pynone

/-- Python equality on values (the == of the compare helper and of the disk
partition test).  Dict equality is modelled positionally over the ordered
association list; the snapshots and rule documents the evaluator meets give
dict literals a fixed key order, so this matches Python on them. -/
def pyEq : Val → Val → Bool
  | .num a, .num b => a == b
  | .str a, .str b => a == b
  | .pynone, .pynone => true
  | .list [], .list [] => true
  | .list (a :: as), .list (b :: bs) => pyEq a b && pyEq (.list as) (.list bs)
  | .dict [], .dict [] => true
  | .dict ((ka, va) :: as), .dict ((kb, vb) :: bs) =>
      ka == kb && pyEq va vb && pyEq (.dict as) (.dict bs)
  | _, _ => false

/-- Dict lookup (first binding of the key). -/
def lookupVal (kvs : List (String × Val)) (k : String) : Option Val :=
  match kvs.find? (fun p => p.1 = k) with
  | Option.none => Option.none
  | some p => some p.2

/-- Python truthiness of a value. -/
def pyTruthy : Val → Bool
  | .num q => q ≠ 0
  | .str s => s ≠ ""
  | .list vs => !vs.isEmpty
  | .dict kvs => !kvs.isEmpty
  | .pynone => false

/-- val_comp of the compare helper (monitoring_status.py lines 81-87):
numbers compare as themselves, lists and strings by length, anything else
raises TypeError (modelled as none). -/
def toComp : Val → Option ℚ
  | .num q => some q
  | .str s => some (s.length : ℚ)
  | .list vs => some (vs.length : ℚ)
  | _ => Option.none

/-- compare (lines 81-97): gte and lte compare val_comp against a numeric
threshold (a non-numeric threshold raises, none); equals and not_equals
also accept identity on the raw value and never raise once val_comp exists;
an unknown compare_logic raises ValueError (none). -/
def compareVal (val : Val) (logic : String) (threshold : Val) : Option Bool := do
  let vc ← toComp val
  if logic = "gte" then
    match threshold with
    | .num t => some (vc ≥ t)
    | _ => Option.none
  else if logic = "lte" then
    match threshold with
    | .num t => some (vc ≤ t)
    | _ => Option.none
  else if logic = "equals" then
    some (pyEq val threshold || pyEq (.num vc) threshold)
  else if logic = "not_equals" then
    some (!pyEq val threshold || !pyEq (.num vc) threshold)
  else Option.none

/-- One configured condition: compare_logic and value are mandatory (the
source indexes them directly), description and the disk-only partition
selector are optional. -/
structure Cond where
  compare_logic : String
  value : Val
  description : Option String
  partition : Option Val

/-- One service entry of the fail_state rule document: an array of
conditions, or an object mapping metric names to arrays of conditions. -/
inductive Conf where
  | listC (cs : List Cond)
  | dictC (m : List (String × List Cond))

/-- The fail_state document: service name to configuration, in document
order. -/
abbrev FailState := List (String × Conf)

/-- A per-service result dict of one agent snapshot. -/
abbrev ServiceDict := List (String × Val)

/-- One snapshot: a list of per-service result dicts. -/
abbrev Snapshot := List ServiceDict

/-- A key of the per-service result map: the metric name, or for disk the
partition selector of the matching condition (any hashable value; an
unhashable list or dict selector raises in Python and is modelled as a
raise). -/
inductive MKey where
  | str (s : String)
  | num (q : ℚ)
  | pynone
deriving DecidableEq

/-- The hashable-key conversion for result keys. -/
def mkeyOf : Val → Option MKey
  | .str s => some (.str s)
  | .num q => some (.num q)
  | .pynone => some MKey.pynone
  | _ => Option.none

/-- One recorded failure: description and detail (the matched value); the
constant result true field of the source is implicit. -/
structure Entry where
  description : String
  detail : Val

/-- The evaluator output: service name to (metric key to entry), insertion
ordered like the Python dicts. -/
abbrev Res := List (String × List (MKey × Entry))

/-- Assoc-list update with Python dict semantics: replace in place keeping
the original position (and key object), else append. -/
def updateAssoc {β : Type} : List (String × β) → String → (Option β → β) → List (String × β)
  | [], k, f => [(k, f Option.none)]
  | (k2, v) :: rest, k, f =>
    if k2 = k then (k2, f (some v)) :: rest else (k2, v) :: updateAssoc rest k f

/-- Metric-level dict assignment, same semantics. -/
def updateMAssoc : List (MKey × Entry) → MKey → Entry → List (MKey × Entry)
  | [], k, e => [(k, e)]
  | (k2, v) :: rest, k, e =>
    if k2 = k then (k2, e) :: rest else (k2, v) :: updateMAssoc rest k e

/-- final_result.setdefault(service, dict())[metric] = entry. -/
def upsert (res : Res) (service : String) (metric : MKey) (e : Entry) : Res :=
  updateAssoc res service (fun old => updateMAssoc (old.getD []) metric e)

/-- A string rendering of a value for the interpolated default descriptions
(best effort: Python float formatting is not reproduced exactly; no claim
depends on it). -/
def valStr : Val → String
  | .num q => toString q
  | .str s => s
  | .pynone => "None"
  | .list _ => "[...]"
  | .dict _ => "\x7b...\x7d"

/-- The interpolated fallback description of the cloudwatch and dict-shaped
branches. -/
def defaultDesc (metric : String) (c : Cond) : String :=
  metric ++ " " ++ c.compare_logic ++ " " ++ valStr c.value

/-- The shared shape of every condition loop of server_status_check
(lines 113-119, 145-154, 195-209): test each condition in configuration
order against the fixed value and assign the entry on every match (each
later match overwriting the recorded entry for the same service and
metric); a compare exception aborts the whole evaluation. -/
def runConds (service : String) (metric : MKey) (val : Val) (descFn : Cond → String)
    (conds : List Cond) (res : Res) : Option Res :=
  conds.foldlM (fun r c => do
    let b ← compareVal val c.compare_logic c.value
    pure (if b then upsert r service metric ⟨descFn c, val⟩ else r)) res

/-- The value scan of the default bucket (lines 104-110): every
service_dict of the snapshot is scanned and the last one containing the
field wins (the break is commented out in the source). -/
def lastValIn (snapshot : Snapshot) (metric : String) : Option Val :=
  (snapshot.filterMap (fun sd => lookupVal sd metric)).getLast?

/-- fail_state.get("default", dict()).items(): absent means no default
metrics; a list-shaped default bucket has no items() and raises. -/
def defaultMetrics (failState : FailState) : Option (List (String × List Cond)) :=
  match failState.find? (fun p => p.1 = "default") with
  | Option.none => some []
  | some (_, Conf.dictC m) => some m
  | some (_, Conf.listC _) => Option.none

/-- Step 1 of the per-snapshot loop (lines 103-119): the default bucket. -/
def defaultStep (dm : List (String × List Cond)) (snapshot : Snapshot) (res : Res) :
    Option Res :=
  dm.foldlM (fun r mc =>
    match lastValIn snapshot mc.1 with
    | Option.none => pure r
    | some val =>
      runConds "default" (MKey.str mc.1) val (fun c => c.description.getD "") mc.2 r) res

/-- d.get(field) on a datapoint or disk entry (raises when d is not a
dict). -/
def dictGet (d : Val) (field : String) : Option Val :=
  match d with
  | .dict kvs => some ((lookupVal kvs field).getD Val.pynone)
  | _ => Option.none

/-- d.get("Timestamp", "") for the latest-datapoint selection; non-dict
datapoints raise, and timestamps are strings in this system (ISO format). -/
def tsOfDp (d : Val) : Option String :=
  match d with
  | .dict kvs =>
    match lookupVal kvs "Timestamp" with
    | Option.none => some ""
    | some (.str s) => some s
    | some _ => Option.none
  | _ => Option.none

/-- max(datapoints, key=Timestamp): first maximal element wins, as in
Python max. -/
def maxByTsAux (cur : Val) (curKey : String) : List Val → Option Val
  | [] => some cur
  | d :: ds => do
    let k ← tsOfDp d
    if curKey < k then maxByTsAux d k ds else maxByTsAux cur curKey ds

/-- max of a nonempty datapoint list by timestamp. -/
def maxByTs : List Val → Option Val
  | [] => Option.none
  | d :: ds => do
    let k ← tsOfDp d
    maxByTsAux d k ds

/-- The CloudWatch special case (lines 131-156): per metric, take the
newest datapoint and test its Average against each condition; empty or
falsy datapoint lists and a missing Average are skipped. -/
def evalCloudwatch (data : Val) (metrics : List (String × List Cond)) (res : Res) :
    Option Res :=
  metrics.foldlM (fun r mc => do
    let dps ← (match data with
      | .dict kvs => some ((lookupVal kvs mc.1).getD (.list []))
      | _ => Option.none)
    if pyTruthy dps = false then pure r
    else
      match dps with
      | .list l => do
        let latest ← maxByTs l
        let avg ← dictGet latest "Average"
        match avg with
        | .pynone => pure r
        | v =>
          runConds "cloudwatch" (MKey.str mc.1) v
            (fun c => c.description.getD (defaultDesc mc.1 c)) mc.2 r
      | _ => Option.none) res

/-- The disk arm of the list-shaped branch (lines 166-179): for one
condition, every entry of the disk list whose partition equals the
condition selector is tested on its percent field; every match assigns
under the selector key. -/
def evalDiskCond (data : Val) (c : Cond) (res : Res) : Option Res :=
  match data with
  | .list ds =>
    ds.foldlM (fun r d => do
      let dp ← dictGet d "partition"
      if pyEq dp (c.partition.getD Val.pynone) then do
        let v ← dictGet d "percent"
        let b ← compareVal v c.compare_logic c.value
        if b then do
          let k ← mkeyOf (c.partition.getD Val.pynone)
          pure (upsert r "disk" k ⟨c.description.getD "", v⟩)
        else pure r
      else pure r) res
  | _ => Option.none

/-- data.get("percentage") if data is a dict else data (the ram arm,
line 181). -/
def ramValOf (data : Val) : Val :=
  match data with
  | .dict kvs => (lookupVal kvs "percentage").getD Val.pynone
  | d => d

/-- The list-shaped branch, CASE A (lines 160-190): disk conditions carry a
partition selector; ram conditions read the percentage field; any other
list-configured service tests nothing. -/
def evalListConf (service : String) (data : Val) (cs : List Cond) (res : Res) :
    Option Res :=
  cs.foldlM (fun r c =>
    if service = "disk" then evalDiskCond data c r
    else if service = "ram" then
      (match ramValOf data with
       | .pynone => pure r
       | v => do
         let b ← compareVal v c.compare_logic c.value
         pure (if b then upsert r service (MKey.str "percentage")
           ⟨c.description.getD "", v⟩ else r))
    else pure r) res

/-- The dict-shaped branch, CASE B (lines 193-209): per configured metric,
read the like-named field of the service blob and test each condition;
missing fields are skipped. -/
def evalDictConf (service : String) (data : Val) (metrics : List (String × List Cond))
    (res : Res) : Option Res :=
  metrics.foldlM (fun r mc =>
    mc.2.foldlM (fun r2 c => do
      let v ← (match data with
        | .dict kvs => some ((lookupVal kvs mc.1).getD Val.pynone)
        | _ => Option.none)
      match v with
      | .pynone => pure r2
      | v2 => do
        let b ← compareVal v2 c.compare_logic c.value
        pure (if b then upsert r2 service (MKey.str mc.1)
          ⟨c.description.getD (defaultDesc mc.1 c), v2⟩ else r2)) r) res

/-- Step 2 of the per-snapshot loop (lines 122-209): for each service_dict,
walk the configured services; default is skipped, absent services are
skipped, cloudwatch with an object configuration takes the special case,
otherwise the list or dict branch applies. -/
def serviceStep (failState : FailState) (sd : ServiceDict) (res : Res) : Option Res :=
  failState.foldlM (fun r sc =>
    if sc.1 = "default" then pure r
    else
      match lookupVal sd sc.1 with
      | Option.none => pure r
      | some data =>
        if sc.1 = "cloudwatch" then
          match sc.2 with
          | Conf.dictC metrics => evalCloudwatch data metrics r
          | Conf.listC cs => evalListConf sc.1 data cs r
        else
          match sc.2 with
          | Conf.listC cs => evalListConf sc.1 data cs r
          | Conf.dictC metrics => evalDictConf sc.1 data metrics r) res

/-- server_status_check (lines 80-211): fold every snapshot of every task
through the default bucket and the per-service matcher, accumulating one
result dict; none models an exception escaping the function. -/
def server_status_check (failState : FailState) (tasks : List Snapshot) : Option Res :=
  tasks.foldlM (fun res snapshot => do
    let dm ← defaultMetrics failState
    let res1 ← defaultStep dm snapshot res
    snapshot.foldlM (fun r sd => serviceStep failState sd r) res1) []

end MonitoringStatus

namespace MonitoringStatus

theorem updateAssoc_updateAssoc {β : Type} (l : List (String × β)) (k : String)
    (f g : Option β → β) :
    updateAssoc (updateAssoc l k f) k g = updateAssoc l k (fun o => g (some (f o))) := by
  induction l with
  | nil => simp [updateAssoc]
  | cons p rest ih =>
    obtain ⟨k2, v⟩ := p
    by_cases h : k2 = k
    · simp [updateAssoc, h]
    · simp [updateAssoc, h, ih]

theorem updateMAssoc_updateMAssoc (l : List (MKey × Entry)) (k : MKey) (e1 e2 : Entry) :
    updateMAssoc (updateMAssoc l k e1) k e2 = updateMAssoc l k e2 := by
  induction l with
  | nil => simp [updateMAssoc]
  | cons p rest ih =>
    obtain ⟨k2, v⟩ := p
    by_cases h : k2 = k
    · simp [updateMAssoc, h]
    · simp [updateMAssoc, h, ih]

/-- Overwriting the same (service, metric) slot twice keeps only the last
entry. -/
theorem upsert_upsert (res : Res) (s : String) (m : MKey) (e1 e2 : Entry) :
    upsert (upsert res s m e1) s m e2 = upsert res s m e2 := by
  unfold upsert
  rw [updateAssoc_updateAssoc]
  have hfun : (fun o => updateMAssoc
        ((some (updateMAssoc ((o : Option (List (MKey × Entry))).getD []) m e1)).getD []) m e2) =
      fun o => updateMAssoc (o.getD []) m e2 := by
    funext o
    simp [updateMAssoc_updateMAssoc]
  rw [hfun]

/-- C3 (amended): a condition loop of server_status_check tests every
configured condition for its (service, metric) pair (no break); when the
comparisons all evaluate without raising, the recorded entry is the one of
the last matching condition in configuration order, each later match having
overwritten the earlier one, and the result dict is untouched when no
condition matches. -/
theorem runConds_last_match (service : String) (metric : MKey) (val : Val)
    (descFn : Cond → String) (conds : List Cond) (res : Res)
    (h : ∀ c ∈ conds, (compareVal val c.compare_logic c.value).isSome) :
    runConds service metric val descFn conds res =
      some (match (conds.filter fun c =>
          compareVal val c.compare_logic c.value = some true).getLast? with
        | some c => upsert res service metric ⟨descFn c, val⟩
        | Option.none => res) := by
  induction conds generalizing res with
  | nil => rfl
  | cons c cs ih =>
    obtain ⟨b, hb⟩ := Option.isSome_iff_exists.1 (h c (List.mem_cons_self c cs))
    have hrest : ∀ d ∈ cs, (compareVal val d.compare_logic d.value).isSome :=
      fun d hd => h d (List.mem_cons_of_mem c hd)
    have step : runConds service metric val descFn (c :: cs) res =
        runConds service metric val descFn cs
          (if b then upsert res service metric ⟨descFn c, val⟩ else res) := by
      simp [runConds, List.foldlM_cons, hb]
    rw [step, ih _ hrest]
    cases b with
    | true =>
      have hfil : ((c :: cs).filter fun d =>
          compareVal val d.compare_logic d.value = some true) =
          c :: (cs.filter fun d => compareVal val d.compare_logic d.value = some true) := by
        simp [List.filter_cons, hb]
      rw [if_pos rfl, hfil, List.getLast?_cons]
      rcases hlast : (cs.filter fun d =>
          compareVal val d.compare_logic d.value = some true).getLast? with _ | c2
      · simp [hlast]
      · simp [hlast, upsert_upsert]
    | false =>
      have hfil : ((c :: cs).filter fun d =>
          compareVal val d.compare_logic d.value = some true) =
          (cs.filter fun d => compareVal val d.compare_logic d.value = some true) := by
        simp [List.filter_cons, hb]
      rw [hfil]
      simp

/-- The first configured condition of the counterexample: matches values of
at least 90. -/
def condFirst : Cond := ⟨"gte", Val.num 90, some "first", Option.none⟩

/-- The second configured condition: matches values of at least 50. -/
def condSecond : Cond := ⟨"gte", Val.num 50, some "second", Option.none⟩

/-- A rule document with two conditions for the same (default, LastUpdate)
pair, both matching the snapshot value 95. -/
def cfg0 : FailState := [("default", Conf.dictC [("LastUpdate", [condFirst, condSecond])])]

/-- One task with one snapshot whose only service dict reports
LastUpdate 95. -/
def tasks0 : List Snapshot := [[[("LastUpdate", Val.num 95)]]]

/-- C3 counterexample: with two conditions configured for the same pair and
both matching the value 95, server_status_check records the second (last)
condition, not the first; the claim that the first matching condition wins
and no further condition is tested is false on this input. -/
theorem server_status_check_first_match_counterexample :
    server_status_check cfg0 tasks0 =
      some [("default", [(MKey.str "LastUpdate",
        (⟨"second", Val.num 95⟩ : Entry))])] ∧
    ¬ server_status_check cfg0 tasks0 =
      some [("default", [(MKey.str "LastUpdate",
        (⟨"first", Val.num 95⟩ : Entry))])] := by
  have h0 : server_status_check cfg0 tasks0 =
      some [("default", [(MKey.str "LastUpdate",
        (⟨"second", Val.num 95⟩ : Entry))])] := rfl
  refine ⟨h0, ?_⟩
  intro h
  rw [h0] at h
  simp [Entry.mk.injEq] at h

/-- Witness for the amended C3 theorem at the counterexample conditions:
the hypotheses hold, the theorem applies, and the loop indeed records the
entry of the second condition. -/
theorem runConds_last_match_witness :
    (∀ c ∈ [condFirst, condSecond],
      (compareVal (Val.num 95) c.compare_logic c.value).isSome) ∧
    runConds "default" (MKey.str "LastUpdate") (Val.num 95)
      (fun c => c.description.getD "") [condFirst, condSecond] [] =
      some (match ([condFirst, condSecond].filter fun c =>
          compareVal (Val.num 95) c.compare_logic c.value = some true).getLast? with
        | some c => upsert [] "default" (MKey.str "LastUpdate")
            ⟨(fun c => c.description.getD "") c, Val.num 95⟩
        | Option.none => []) ∧
    runConds "default" (MKey.str "LastUpdate") (Val.num 95)
      (fun c => c.description.getD "") [condFirst, condSecond] [] =
      some [("default", [(MKey.str "LastUpdate",
        (⟨"second", Val.num 95⟩ : Entry))])] := by
  have hh : ∀ c ∈ [condFirst, condSecond],
      (compareVal (Val.num 95) c.compare_logic c.value).isSome := by
    decide
  exact ⟨hh,
    runConds_last_match "default" (MKey.str "LastUpdate") (Val.num 95)
      (fun c => c.description.getD "") [condFirst, condSecond] [] hh, rfl⟩

end MonitoringStatus
